import Mathlib

/-!
Shallow embedding of the tiktaktoes game core:
`internal/models/game.go`, `internal/game/service.go` and the broadcast
hub (`internal/broadcast`).  Machine integers that matter (the move
position, a Go `int`) are modelled as `Int`; the board is a list of 9
cells; the per-session logic of each `Service` method is embedded as a
pure function, with the store's `map[string]*GameState` modelled as
`String → Option GameState`.
-/

namespace TikTakToes

/-- `models.Player`: `"X"`, `"O"` or `""` (empty). -/
inductive Player where
  | X : Player
  | O : Player
  | Empty : Player
deriving DecidableEq, Repr

/-- `models.Board` is `[9]Player`; embedded as a list whose length-9
invariant is maintained by the operations. -/
abbrev Board := List Player

/-- `models.GameState`. -/
structure GameState where
  id : String
  board : Board
  currentTurn : Player
  winner : Player
  isOver : Bool
  isDraw : Bool
  playerXJoined : Bool
  playerOJoined : Bool
deriving DecidableEq, Repr

/-- `models.Move` (`Position` is a Go `int`, so it can be negative). -/
structure Move where
  position : Int
  player : Player
deriving DecidableEq, Repr

/-- The typed errors of `internal/game/service.go` (`ErrInvalidMove`,
`ErrNotYourTurn`, ..., plus the ad-hoc `errors.New("game not found")`). -/
inductive GameError where
  | invalidMove : GameError
  | notYourTurn : GameError
  | gameOver : GameError
  | positionTaken : GameError
  | gameFull : GameError
  | slotTaken : GameError
  | invalidPlayer : GameError
  | gameNotFound : GameError
deriving DecidableEq, Repr

/-- `models.NewGameState`: empty board, turn X, all flags at their Go
zero values (the struct literal leaves `PlayerXJoined`/`PlayerOJoined`
unset, hence `false`). -/
def newGameState (id : String) : GameState :=
  { id := id
    board := List.replicate 9 Player.Empty
    currentTurn := Player.X
    winner := Player.Empty
    isOver := false
    isDraw := false
    playerXJoined := false
    playerOJoined := false }

/-- Reading `board[i]` (the Go code only indexes with a validated
in-range position). -/
def cell (board : Board) (i : Nat) : Player :=
  board.getD i Player.Empty

/-- `winConditions` from `service.go`: 3 rows, 3 columns, 2 diagonals. -/
def winConditions : List (Nat × Nat × Nat) :=
  [(0, 1, 2), (3, 4, 5), (6, 7, 8),
   (0, 3, 6), (1, 4, 7), (2, 5, 8),
   (0, 4, 8), (2, 4, 6)]

/-- One winning line is fully occupied by a single mark. -/
def lineComplete (board : Board) (l : Nat × Nat × Nat) : Prop :=
  cell board l.1 ≠ Player.Empty ∧
  cell board l.1 = cell board l.2.1 ∧
  cell board l.2.1 = cell board l.2.2

instance (board : Board) (l : Nat × Nat × Nat) :
    Decidable (lineComplete board l) := by
  unfold lineComplete; infer_instance

/-- The loop body of `Service.checkWinner` over the remaining
conditions: first complete line wins. -/
def checkWinnerAux (board : Board) : List (Nat × Nat × Nat) → Player
  | [] => Player.Empty
  | l :: rest =>
    if lineComplete board l then cell board l.1
    else checkWinnerAux board rest

/-- `Service.checkWinner`. -/
def checkWinner (board : Board) : Player :=
  checkWinnerAux board winConditions

/-- `Service.isBoardFull`. -/
def isBoardFull (board : Board) : Bool :=
  board.all fun c => decide (c ≠ Player.Empty)

/-- The per-session body of `Service.MakeMove` (everything after the
store lookup), in the exact order of the Go checks: `IsOver`, position
range, position occupied, turn; then the mutation and the terminal
update. -/
def applyMove (game : GameState) (move : Move) : Except GameError GameState :=
  if game.isOver then .error .gameOver
  else if move.position < 0 ∨ move.position > 8 then .error .invalidMove
  else if cell game.board move.position.toNat ≠ Player.Empty then .error .positionTaken
  else if move.player ≠ game.currentTurn then .error .notYourTurn
  else if checkWinner (game.board.set move.position.toNat move.player) ≠ Player.Empty then
    .ok { game with
          board := game.board.set move.position.toNat move.player
          winner := checkWinner (game.board.set move.position.toNat move.player)
          isOver := true }
  else if isBoardFull (game.board.set move.position.toNat move.player) then
    .ok { game with
          board := game.board.set move.position.toNat move.player
          isDraw := true
          isOver := true }
  else
    .ok { game with
          board := game.board.set move.position.toNat move.player
          currentTurn :=
            (if game.currentTurn = Player.X then Player.O else Player.X) }

/-- `Service.CreateGame` for a fresh id: the creator automatically
claims a seat when it names a recognized mark. -/
def createGame (id : String) (creator : Player) : GameState :=
  if creator = Player.X then { newGameState id with playerXJoined := true }
  else if creator = Player.O then { newGameState id with playerOJoined := true }
  else newGameState id

/-- The per-session body of `Service.JoinGame` (after the store
lookup), in the exact order of the Go checks: invalid mark, requested
slot taken, game full, then the claim. -/
def joinGame (game : GameState) (player : Player) : Except GameError GameState :=
  if player ≠ Player.X ∧ player ≠ Player.O then .error .invalidPlayer
  else if player = Player.X ∧ game.playerXJoined then .error .slotTaken
  else if player = Player.O ∧ game.playerOJoined then .error .slotTaken
  else if game.playerXJoined ∧ game.playerOJoined then .error .gameFull
  else if player = Player.X then .ok { game with playerXJoined := true }
  else .ok { game with playerOJoined := true }

/-- The service's `games` map. -/
def Store := String → Option GameState

/-- `Service.MakeMove` including the store lookup and write-back; an
error return leaves the store untouched (the Go method returns before
mutating). -/
def storeMakeMove (s : Store) (gameID : String) (move : Move) :
    Except GameError (GameState × Store) :=
  match s gameID with
  | none => .error .gameNotFound
  | some game =>
    match applyMove game move with
    | .error e => .error e
    | .ok game2 =>
      .ok (game2, fun id => if id = gameID then some game2 else s id)

/-- `Service.ResetGame`: unknown id fails with not-found, otherwise the
entry is replaced by `NewGameState(gameID)`. -/
def storeResetGame (s : Store) (gameID : String) :
    Except GameError (GameState × Store) :=
  match s gameID with
  | none => .error .gameNotFound
  | some _ =>
    .ok (newGameState gameID,
         fun id => if id = gameID then some (newGameState gameID) else s id)

/-- Session states reachable through the service's mutating
operations: creation (with an optional seat claim), successful joins,
accepted moves, and reset. -/
inductive Reachable : GameState → Prop where
  | create : ∀ (id : String) (creator : Player), Reachable (createGame id creator)
  | join : ∀ (g g2 : GameState) (p : Player),
      Reachable g → joinGame g p = .ok g2 → Reachable g2
  | move : ∀ (g g2 : GameState) (m : Move),
      Reachable g → applyMove g m = .ok g2 → Reachable g2
  | reset : ∀ (g : GameState), Reachable g → Reachable (newGameState g.id)

/-- The inductive invariant of reachable session states. -/
def Inv (g : GameState) : Prop :=
  g.board.length = 9 ∧
  (g.winner ≠ Player.Empty → g.isDraw = false ∧ g.isOver = true) ∧
  (g.isOver = false → checkWinner g.board = Player.Empty ∧ g.winner = Player.Empty) ∧
  (g.isDraw = true → g.isOver = true) ∧
  (g.currentTurn = Player.X ∨ g.currentTurn = Player.O)

/-- Names the successor state of an accepted move (identity on a
rejected move); used to spell out concrete games. -/
def stepGame (g : GameState) (m : Move) : GameState :=
  match applyMove g m with
  | .ok g2 => g2
  | .error _ => g

/-- Observer handles of the two kinds the hub tracks: duplex WebSocket
connections (`wsClients`) and one-way SSE channels (`sseClients`). -/
inductive Observer (W S : Type) where
  | ws : W → Observer W S
  | sse : S → Observer W S
deriving DecidableEq, Repr

/-- `broadcast.Hub`: per-game registries of WebSocket connections and
SSE channels (`map[string]map[...]bool`, embedded as per-id lists). -/
structure Hub (W S : Type) where
  wsClients : String → List W
  sseClients : String → List S

/-- `Hub.RegisterWS`. -/
def registerWS {W S : Type} (h : Hub W S) (gameID : String) (c : W) : Hub W S :=
  { h with wsClients := fun id =>
      if id = gameID then c :: h.wsClients id else h.wsClients id }

/-- `Hub.UnregisterWS`. -/
def unregisterWS {W S : Type} [DecidableEq W] (h : Hub W S) (gameID : String)
    (c : W) : Hub W S :=
  { h with wsClients := fun id =>
      if id = gameID then (h.wsClients id).filter (fun c2 => c2 ≠ c)
      else h.wsClients id }

/-- `Hub.RegisterSSE`. -/
def registerSSE {W S : Type} (h : Hub W S) (gameID : String) (c : S) : Hub W S :=
  { h with sseClients := fun id =>
      if id = gameID then c :: h.sseClients id else h.sseClients id }

/-- `Hub.UnregisterSSE` (the channel close is observer I/O, outside the
registry state). -/
def unregisterSSE {W S : Type} [DecidableEq S] (h : Hub W S) (gameID : String)
    (c : S) : Hub W S :=
  { h with sseClients := fun id =>
      if id = gameID then (h.sseClients id).filter (fun c2 => c2 ≠ c)
      else h.sseClients id }

/-- An observer is currently registered under a game id. -/
def registered {W S : Type} (h : Hub W S) (gameID : String) :
    Observer W S → Prop
  | .ws c => c ∈ h.wsClients gameID
  | .sse c => c ∈ h.sseClients gameID

instance {W S : Type} [DecidableEq W] [DecidableEq S] (h : Hub W S)
    (gameID : String) (o : Observer W S) :
    Decidable (registered h gameID o) := by
  cases o with
  | ws c => unfold registered; infer_instance
  | sse c => unfold registered; infer_instance

/-- `Hub.Broadcast` as its list of delivery events: one write per
WebSocket connection registered under `gameID`, then one channel send
per SSE channel registered under `gameID`, each carrying the given
snapshot. -/
def broadcastEvents {W S : Type} (h : Hub W S) (gameID : String)
    (game : GameState) : List (Observer W S × GameState) :=
  ((h.wsClients gameID).map fun c => (Observer.ws c, game)) ++
  ((h.sseClients gameID).map fun c => (Observer.sse c, game))

/-! ### Concrete games and stores used by the witnesses -/

/-- The winning scenario of spec §8: X plays 0, 1, 2; O plays 3, 4. -/
def demoG0 : GameState := createGame "g" Player.X

def demoG1 : GameState := stepGame demoG0 ⟨0, Player.X⟩

def demoG2 : GameState := stepGame demoG1 ⟨3, Player.O⟩

def demoG3 : GameState := stepGame demoG2 ⟨1, Player.X⟩

def demoG4 : GameState := stepGame demoG3 ⟨4, Player.O⟩

def demoG5 : GameState := stepGame demoG4 ⟨2, Player.X⟩

/-- The draw scenario of spec §8: moves 0X 1O 2X 4O 3X 5O 7X 6O 8X. -/
def ddMoves : List Move :=
  [⟨0, Player.X⟩, ⟨1, Player.O⟩, ⟨2, Player.X⟩, ⟨4, Player.O⟩,
   ⟨3, Player.X⟩, ⟨5, Player.O⟩, ⟨7, Player.X⟩, ⟨6, Player.O⟩,
   ⟨8, Player.X⟩]

def ddGame (n : Nat) : GameState :=
  (ddMoves.take n).foldl stepGame demoG0

/-- A store holding the single fresh session `"g1"`. -/
def storeOne : Store :=
  fun id => if id = "g1" then some (createGame "g1" Player.X) else none

/-- A session with both seats claimed, and a store holding it. -/
def gBoth : GameState :=
  { newGameState "g1" with playerXJoined := true, playerOJoined := true }

def storeBoth : Store :=
  fun id => if id = "g1" then some gBoth else none

/-- The empty store. -/
def storeEmpty : Store := fun _ => none

/-- A sample hub: one WebSocket observer under `"a"`, one SSE observer
under `"b"`. -/
def hubSample : Hub Nat Nat :=
  { wsClients := fun id => if id = "a" then [1] else []
    sseClients := fun id => if id = "b" then [2] else [] }

/-! ### Helper lemmas -/

theorem cell_set_self (board : Board) (i : Nat) (p : Player)
    (h : i < board.length) : cell (board.set i p) i = p := by
  simp [cell, List.getD, List.getElem?_set_self, h]

theorem cell_set_ne (board : Board) (i j : Nat) (p : Player)
    (h : i ≠ j) : cell (board.set i p) j = cell board j := by
  simp [cell, List.getD, List.getElem?_set_ne h]

theorem checkWinnerAux_eq_empty (board : Board)
    (ls : List (Nat × Nat × Nat)) :
    checkWinnerAux board ls = Player.Empty ↔
      ∀ l ∈ ls, ¬ lineComplete board l := by
  induction ls with
  | nil => simp [checkWinnerAux]
  | cons l rest ih =>
    by_cases hl : lineComplete board l
    · simp only [checkWinnerAux, if_pos hl]
      constructor
      · intro h
        exact absurd h hl.1
      · intro h
        exact absurd hl (h l (List.mem_cons_self l rest))
    · simp only [checkWinnerAux, if_neg hl, ih]
      constructor
      · intro h l2 hmem
        rcases List.mem_cons.mp hmem with h1 | h2
        · exact h1 ▸ hl
        · exact h l2 h2
      · intro h l2 hmem
        exact h l2 (List.mem_cons_of_mem l hmem)

theorem checkWinnerAux_ne_empty (board : Board)
    (ls : List (Nat × Nat × Nat))
    (h : checkWinnerAux board ls ≠ Player.Empty) :
    ∃ l ∈ ls, lineComplete board l ∧
      checkWinnerAux board ls = cell board l.1 := by
  induction ls with
  | nil => exact absurd rfl h
  | cons l rest ih =>
    by_cases hl : lineComplete board l
    · exact ⟨l, List.mem_cons_self l rest, hl, by
        simp only [checkWinnerAux, if_pos hl]⟩
    · rw [checkWinnerAux, if_neg hl] at h ⊢
      obtain ⟨l2, hmem, hc, hv⟩ := ih h
      exact ⟨l2, List.mem_cons_of_mem l hmem, hc, hv⟩

theorem checkWinner_empty_board :
    checkWinner (List.replicate 9 Player.Empty) = Player.Empty := by
  decide

theorem inv_newGameState (id : String) : Inv (newGameState id) := by
  refine ⟨by simp [newGameState], by simp [newGameState], ?_,
    by simp [newGameState], Or.inl rfl⟩
  intro _
  exact ⟨checkWinner_empty_board, rfl⟩

theorem inv_createGame (id : String) (creator : Player) :
    Inv (createGame id creator) := by
  unfold createGame
  split
  · exact ⟨by simp [newGameState], by simp [newGameState],
      fun _ => ⟨checkWinner_empty_board, rfl⟩,
      by simp [newGameState], Or.inl rfl⟩
  · split
    · exact ⟨by simp [newGameState], by simp [newGameState],
        fun _ => ⟨checkWinner_empty_board, rfl⟩,
        by simp [newGameState], Or.inl rfl⟩
    · exact inv_newGameState id

theorem inv_join (g g2 : GameState) (p : Player)
    (hg : Inv g) (h : joinGame g p = .ok g2) : Inv g2 := by
  unfold joinGame at h
  split at h
  · cases h
  · split at h
    · cases h
    · split at h
      · cases h
      · split at h
        · cases h
        · obtain ⟨h1, h2, h3, h4, h5⟩ := hg
          split at h <;>
          · injection h with h
            subst h
            exact ⟨h1, h2, h3, h4, h5⟩

theorem inv_move (g g2 : GameState) (m : Move)
    (hg : Inv g) (h : applyMove g m = .ok g2) : Inv g2 := by
  obtain ⟨hlen, hwin, hopen, hdraw, hturn⟩ := hg
  unfold applyMove at h
  split at h
  · cases h
  case isFalse hover =>
  split at h
  · cases h
  split at h
  · cases h
  split at h
  · cases h
  have hov : g.isOver = false := by
    simpa using hover
  have hnw : g.winner = Player.Empty := (hopen hov).2
  have hnd : g.isDraw = false := by
    rcases Bool.eq_false_or_eq_true g.isDraw with h1 | h1
    · exact absurd (hdraw h1) (by simp [hov])
    · exact h1
  have hlen2 : (g.board.set m.position.toNat m.player).length = 9 := by
    simpa using hlen
  split at h
  case isTrue hw =>
    injection h with h
    subst h
    exact ⟨hlen2, fun _ => ⟨hnd, rfl⟩, by simp, fun _ => rfl, hturn⟩
  case isFalse hw =>
  split at h
  · injection h with h
    subst h
    exact ⟨hlen2, fun hc => absurd hnw hc, by simp, fun _ => rfl, hturn⟩
  · injection h with h
    subst h
    refine ⟨hlen2, fun hc => absurd hnw hc, ?_, ?_, ?_⟩
    · intro _
      exact ⟨by simpa using hw, hnw⟩
    · intro hc
      exact absurd hc (by simp [hnd])
    · dsimp only
      split
      · exact Or.inr rfl
      · exact Or.inl rfl

theorem reachable_inv (g : GameState) (h : Reachable g) : Inv g := by
  induction h with
  | create id creator => exact inv_createGame id creator
  | join g g2 p _ hj ih => exact inv_join g g2 p ih hj
  | move g g2 m _ hm ih => exact inv_move g g2 m ih hm
  | reset g _ _ => exact inv_newGameState g.id

/-- Anatomy of an accepted move: the four validations passed, the board
gained the mover's mark at the target cell, and the terminal update took
exactly one of its three branches. -/
theorem applyMove_ok_cases (g g2 : GameState) (m : Move)
    (h : applyMove g m = .ok g2) :
    g.isOver = false ∧
    ¬(m.position < 0 ∨ m.position > 8) ∧
    cell g.board m.position.toNat = Player.Empty ∧
    m.player = g.currentTurn ∧
    g2.board = g.board.set m.position.toNat m.player ∧
    ((checkWinner g2.board ≠ Player.Empty ∧
      g2 = { g with
             board := g2.board
             winner := checkWinner g2.board
             isOver := true }) ∨
     (checkWinner g2.board = Player.Empty ∧ isBoardFull g2.board = true ∧
      g2 = { g with board := g2.board, isDraw := true, isOver := true }) ∨
     (checkWinner g2.board = Player.Empty ∧ isBoardFull g2.board = false ∧
      g2 = { g with
             board := g2.board
             currentTurn :=
               (if g.currentTurn = Player.X then Player.O else Player.X) })) := by
  unfold applyMove at h
  split at h
  · cases h
  case isFalse hover =>
  split at h
  · cases h
  case isFalse hrange =>
  split at h
  · cases h
  case isFalse hocc =>
  split at h
  · cases h
  case isFalse hturnne =>
  split at h
  case isTrue hw =>
    injection h with h
    subst h
    exact ⟨by simpa using hover, hrange, by simpa using hocc,
      by simpa using hturnne, rfl, Or.inl ⟨hw, rfl⟩⟩
  case isFalse hw =>
  split at h
  case isTrue hfull =>
    injection h with h
    subst h
    exact ⟨by simpa using hover, hrange, by simpa using hocc,
      by simpa using hturnne, rfl, Or.inr (Or.inl ⟨by simpa using hw, hfull, rfl⟩)⟩
  case isFalse hfull =>
    injection h with h
    subst h
    exact ⟨by simpa using hover, hrange, by simpa using hocc,
      by simpa using hturnne, rfl,
      Or.inr (Or.inr ⟨by simpa using hw, by simpa using hfull, rfl⟩)⟩

/-- If the pre-move board has no complete line, any line complete after
writing `p` at `pos` passes through `pos`, so its value is `p`. -/
theorem complete_line_value (board : Board) (pos : Nat) (p : Player)
    (hpos : pos < board.length)
    (hnone : ∀ l ∈ winConditions, ¬ lineComplete board l)
    (l : Nat × Nat × Nat) (hl : l ∈ winConditions)
    (hc : lineComplete (board.set pos p) l) :
    cell (board.set pos p) l.1 = p := by
  obtain ⟨h1, h2, h3⟩ := hc
  by_cases e1 : pos = l.1
  · rw [← e1]
    exact cell_set_self board pos p hpos
  · by_cases e2 : pos = l.2.1
    · rw [h2, ← e2]
      exact cell_set_self board pos p hpos
    · by_cases e3 : pos = l.2.2
      · rw [h2, h3, ← e3]
        exact cell_set_self board pos p hpos
      · exfalso
        apply hnone l hl
        refine ⟨?_, ?_, ?_⟩
        · rw [← cell_set_ne board pos l.1 p e1]
          exact h1
        · rw [← cell_set_ne board pos l.1 p e1,
            ← cell_set_ne board pos l.2.1 p e2]
          exact h2
        · rw [← cell_set_ne board pos l.2.1 p e2,
            ← cell_set_ne board pos l.2.2 p e3]
          exact h3

/-! ### Reachability of the concrete games -/

theorem reach_demoG0 : Reachable demoG0 := Reachable.create "g" Player.X

theorem reach_demoG1 : Reachable demoG1 :=
  Reachable.move demoG0 demoG1 ⟨0, Player.X⟩ reach_demoG0 rfl

theorem reach_demoG2 : Reachable demoG2 :=
  Reachable.move demoG1 demoG2 ⟨3, Player.O⟩ reach_demoG1 rfl

theorem reach_demoG3 : Reachable demoG3 :=
  Reachable.move demoG2 demoG3 ⟨1, Player.X⟩ reach_demoG2 rfl

theorem reach_demoG4 : Reachable demoG4 :=
  Reachable.move demoG3 demoG4 ⟨4, Player.O⟩ reach_demoG3 rfl

theorem reach_demoG5 : Reachable demoG5 :=
  Reachable.move demoG4 demoG5 ⟨2, Player.X⟩ reach_demoG4 rfl

theorem reach_dd8 : Reachable (ddGame 8) :=
  Reachable.move (ddGame 7) (ddGame 8) ⟨6, Player.O⟩
    (Reachable.move (ddGame 6) (ddGame 7) ⟨7, Player.X⟩
      (Reachable.move (ddGame 5) (ddGame 6) ⟨5, Player.O⟩
        (Reachable.move (ddGame 4) (ddGame 5) ⟨3, Player.X⟩
          (Reachable.move (ddGame 3) (ddGame 4) ⟨4, Player.O⟩
            (Reachable.move (ddGame 2) (ddGame 3) ⟨2, Player.X⟩
              (Reachable.move (ddGame 1) (ddGame 2) ⟨1, Player.O⟩
                (Reachable.move (ddGame 0) (ddGame 1) ⟨0, Player.X⟩
                  (Reachable.create "g" Player.X) rfl) rfl) rfl) rfl)
            rfl) rfl) rfl) rfl

/-! ### The claims -/

/-- Claim C1: on every accepted move of a reachable session, if the
written mark completes any of the 8 winning lines then the returned
state has `winner` equal to that mark and `IsOver = true` on that exact
move; and an accepted move after which no line is complete never sets
`winner`, and sets the terminal flag only by filling the board (so no
move of a game that continues sets `winner` or the terminal flag while
no line is complete). -/
theorem makeMove_win_detection (g g2 : GameState) (m : Move)
    (hr : Reachable g) (h : applyMove g m = .ok g2) :
    ((∃ l ∈ winConditions, lineComplete g2.board l) →
      g2.winner = m.player ∧ g2.isOver = true) ∧
    ((∀ l ∈ winConditions, ¬ lineComplete g2.board l) →
      g2.winner = Player.Empty ∧
      (g2.isOver = true → isBoardFull g2.board = true)) := by
  obtain ⟨hov, hrange, hocc, hturnmv, hboard, hcases⟩ :=
    applyMove_ok_cases g g2 m h
  obtain ⟨hlen, hwin, hopen, hdraw, hturn⟩ := reachable_inv g hr
  have hnoline : ∀ l ∈ winConditions, ¬ lineComplete g.board l :=
    (checkWinnerAux_eq_empty g.board winConditions).mp (hopen hov).1
  have hnw : g.winner = Player.Empty := (hopen hov).2
  have hposlen : m.position.toNat < g.board.length := by
    push_neg at hrange
    rw [hlen]
    omega
  rcases hcases with ⟨hw, hEq⟩ | ⟨hw, hfull, hEq⟩ | ⟨hw, hfull, hEq⟩
  · constructor
    · intro _
      obtain ⟨l0, hl0, hc0, hv0⟩ :=
        checkWinnerAux_ne_empty g2.board winConditions hw
      rw [hboard] at hc0
      have hval := complete_line_value g.board m.position.toNat m.player
        hposlen hnoline l0 hl0 hc0
      refine ⟨?_, by rw [hEq]⟩
      calc g2.winner = checkWinner g2.board := by rw [hEq]
        _ = cell g2.board l0.1 := hv0
        _ = m.player := by rw [hboard]; exact hval
    · intro hno
      exact absurd ((checkWinnerAux_eq_empty g2.board winConditions).mpr hno) hw
  · have hno2 : ∀ l ∈ winConditions, ¬ lineComplete g2.board l :=
      (checkWinnerAux_eq_empty g2.board winConditions).mp hw
    constructor
    · rintro ⟨l, hl, hc⟩
      exact absurd hc (hno2 l hl)
    · intro _
      exact ⟨by rw [hEq]; exact hnw, fun _ => hfull⟩
  · have hno2 : ∀ l ∈ winConditions, ¬ lineComplete g2.board l :=
      (checkWinnerAux_eq_empty g2.board winConditions).mp hw
    constructor
    · rintro ⟨l, hl, hc⟩
      exact absurd hc (hno2 l hl)
    · intro _
      refine ⟨by rw [hEq]; exact hnw, ?_⟩
      intro hcontra
      rw [hEq] at hcontra
      exact absurd hcontra (by simp [hov])

/-- Witness for C1: X completes the top row on the fifth move of the
spec §8 scenario. -/
theorem makeMove_win_detection_witness :
    demoG5.winner = Player.X ∧ demoG5.isOver = true :=
  (makeMove_win_detection demoG4 demoG5 ⟨2, Player.X⟩ reach_demoG4 rfl).1
    ⟨(0, 1, 2), by decide, by decide⟩

/-- Claim C2 as stated is false: the occupied-cell check runs before
the turn check in `MakeMove`, so a wrong-turn move on an occupied cell
fails with `ErrPositionTaken`, not `ErrNotYourTurn`.  Counterexample:
after X (the creator) plays cell 0, it is O's turn, and the wrong-turn
move X→0 is rejected as `positionTaken`. -/
theorem makeMove_notYourTurn_cex :
    Reachable demoG1 ∧ demoG1.isOver = false ∧
    (Move.mk 0 Player.X).player ≠ demoG1.currentTurn ∧
    applyMove demoG1 ⟨0, Player.X⟩ = .error .positionTaken ∧
    applyMove demoG1 ⟨0, Player.X⟩ ≠ .error .notYourTurn :=
  ⟨reach_demoG1, rfl, by decide, rfl, by
    rw [show applyMove demoG1 ⟨0, Player.X⟩ =
      Except.error GameError.positionTaken from rfl]
    simp⟩

/-- Claim C2 (amended): for every existing non-terminal session, a move
whose mark differs from the current turn fails with `NotYourTurn`
provided its target position is in range and empty; the store (hence
the board) is left unchanged since the method returns before any
mutation. -/
theorem makeMove_notYourTurn_amended (s : Store) (gameID : String)
    (g : GameState) (m : Move) (hs : s gameID = some g)
    (hov : g.isOver = false)
    (hrange : ¬(m.position < 0 ∨ m.position > 8))
    (hempty : cell g.board m.position.toNat = Player.Empty)
    (hturn : m.player ≠ g.currentTurn) :
    storeMakeMove s gameID m = .error .notYourTurn := by
  have happ : applyMove g m = .error .notYourTurn := by
    unfold applyMove
    rw [if_neg (by simp [hov]), if_neg hrange, if_neg (by simp [hempty]),
      if_pos hturn]
  simp [storeMakeMove, hs, happ]

/-- Witness for the amended C2: O tries to move first on a fresh
session. -/
theorem makeMove_notYourTurn_witness :
    storeMakeMove storeOne "g1" ⟨0, Player.O⟩ = .error .notYourTurn :=
  makeMove_notYourTurn_amended storeOne "g1" (createGame "g1" Player.X)
    ⟨0, Player.O⟩ rfl rfl (by decide) rfl (by decide)

/-- Claim C3: an accepted move of a reachable session that leaves the
board full with no complete line sets `IsDraw = true`, `IsOver = true`
and leaves `winner` empty. -/
theorem makeMove_draw_detection (g g2 : GameState) (m : Move)
    (hr : Reachable g) (h : applyMove g m = .ok g2)
    (hfull : isBoardFull g2.board = true)
    (hno : ∀ l ∈ winConditions, ¬ lineComplete g2.board l) :
    g2.isDraw = true ∧ g2.isOver = true ∧ g2.winner = Player.Empty := by
  obtain ⟨hov, _, _, _, _, hcases⟩ := applyMove_ok_cases g g2 m h
  have hnw : g.winner = Player.Empty :=
    ((reachable_inv g hr).2.2.1 hov).2
  rcases hcases with ⟨hw, hEq⟩ | ⟨_, _, hEq⟩ | ⟨_, hfull2, _⟩
  · exact absurd ((checkWinnerAux_eq_empty g2.board winConditions).mpr hno) hw
  · exact ⟨by rw [hEq], by rw [hEq], by rw [hEq]; exact hnw⟩
  · exact absurd hfull (by simp [hfull2])

/-- Witness for C3: the ninth move of the spec §8 draw scenario. -/
theorem makeMove_draw_detection_witness :
    (ddGame 9).isDraw = true ∧ (ddGame 9).isOver = true ∧
    (ddGame 9).winner = Player.Empty :=
  makeMove_draw_detection (ddGame 8) (ddGame 9) ⟨8, Player.X⟩ reach_dd8 rfl
    (by decide) (by decide)

/-- Claim C4: after an accepted move that does not end the game the
turn flips to the other mark (so it strictly alternates), and an
accepted move that ends the game does not flip the turn. -/
theorem makeMove_turn_alternation (g g2 : GameState) (m : Move)
    (hr : Reachable g) (h : applyMove g m = .ok g2) :
    (g2.isOver = false →
      (g.currentTurn = Player.X → g2.currentTurn = Player.O) ∧
      (g.currentTurn = Player.O → g2.currentTurn = Player.X) ∧
      g2.currentTurn ≠ g.currentTurn) ∧
    (g2.isOver = true → g2.currentTurn = g.currentTurn) := by
  obtain ⟨hov, _, _, _, _, hcases⟩ := applyMove_ok_cases g g2 m h
  have hturn := (reachable_inv g hr).2.2.2.2
  rcases hcases with ⟨_, hEq⟩ | ⟨_, _, hEq⟩ | ⟨_, _, hEq⟩
  · refine ⟨?_, fun _ => by rw [hEq]⟩
    intro hfalse
    rw [hEq] at hfalse
    cases hfalse
  · refine ⟨?_, fun _ => by rw [hEq]⟩
    intro hfalse
    rw [hEq] at hfalse
    cases hfalse
  · constructor
    · intro _
      refine ⟨?_, ?_, ?_⟩
      · intro hx
        rw [hEq]
        simp [hx]
      · intro hO
        rw [hEq]
        simp [hO]
      · rcases hturn with hx | hO
        · rw [hEq, hx]
          simp
        · rw [hEq, hO]
          simp
    · intro hcontra
      rw [hEq] at hcontra
      exact absurd hcontra (by simp [hov])

/-- Witness for C4: the first accepted move flips the turn from X
to O. -/
theorem makeMove_turn_alternation_witness :
    demoG1.currentTurn = Player.O :=
  ((makeMove_turn_alternation demoG0 demoG1 ⟨0, Player.X⟩
    reach_demoG0 rfl).1 rfl).1 rfl

/-- Claim C5: for an existing session id, `ResetGame` succeeds with a
state whose board is entirely empty, current turn X, terminal/draw/
winner cleared to their creation defaults and identifier unchanged;
for an unknown id it fails with the not-found error. -/
theorem resetGame_spec (s : Store) (gameID : String) :
    ((∃ g, s gameID = some g) →
      ∃ s2, storeResetGame s gameID = .ok (newGameState gameID, s2) ∧
        (newGameState gameID).board = List.replicate 9 Player.Empty ∧
        (newGameState gameID).currentTurn = Player.X ∧
        (newGameState gameID).isOver = false ∧
        (newGameState gameID).isDraw = false ∧
        (newGameState gameID).winner = Player.Empty ∧
        (newGameState gameID).id = gameID) ∧
    (s gameID = none → storeResetGame s gameID = .error .gameNotFound) := by
  constructor
  · rintro ⟨g, hg⟩
    refine ⟨fun id => if id = gameID then some (newGameState gameID) else s id,
      ?_, rfl, rfl, rfl, rfl, rfl, rfl⟩
    simp [storeResetGame, hg]
  · intro hnone
    simp [storeResetGame, hnone]

/-- Witness for C5: reset of the one-session store succeeds with a
fresh state; reset on the empty store is not-found. -/
theorem resetGame_spec_witness :
    (∃ s2, storeResetGame storeOne "g1" = .ok (newGameState "g1", s2) ∧
      (newGameState "g1").board = List.replicate 9 Player.Empty ∧
      (newGameState "g1").currentTurn = Player.X ∧
      (newGameState "g1").isOver = false ∧
      (newGameState "g1").isDraw = false ∧
      (newGameState "g1").winner = Player.Empty ∧
      (newGameState "g1").id = "g1") ∧
    storeResetGame storeEmpty "g1" = .error .gameNotFound :=
  ⟨(resetGame_spec storeOne "g1").1 ⟨createGame "g1" Player.X, rfl⟩,
   (resetGame_spec storeEmpty "g1").2 rfl⟩

/-- Claim C6: a move whose position lies outside 0–8 on an existing
non-terminal session fails with the invalid-move error (the spec's
`InvalidPosition`), the store being left unchanged since the method
returns before any mutation. -/
theorem makeMove_invalidPosition (s : Store) (gameID : String)
    (g : GameState) (m : Move) (hs : s gameID = some g)
    (hov : g.isOver = false) (hpos : m.position < 0 ∨ m.position > 8) :
    storeMakeMove s gameID m = .error .invalidMove := by
  have happ : applyMove g m = .error .invalidMove := by
    unfold applyMove
    rw [if_neg (by simp [hov]), if_pos hpos]
  simp [storeMakeMove, hs, happ]

/-- Witness for C6: position 9 on a fresh session. -/
theorem makeMove_invalidPosition_witness :
    storeMakeMove storeOne "g1" ⟨9, Player.X⟩ = .error .invalidMove :=
  makeMove_invalidPosition storeOne "g1" (createGame "g1" Player.X)
    ⟨9, Player.X⟩ rfl rfl (Or.inr (by decide))

/-- Claim C7: in every reachable session state, a set winner implies
the draw flag is false and the terminal flag is true. -/
theorem winner_implies_over_not_draw (g : GameState) (hr : Reachable g)
    (hw : g.winner ≠ Player.Empty) :
    g.isDraw = false ∧ g.isOver = true :=
  (reachable_inv g hr).2.1 hw

/-- Witness for C7: the won game of the spec §8 scenario. -/
theorem winner_implies_over_not_draw_witness :
    demoG5.isDraw = false ∧ demoG5.isOver = true :=
  winner_implies_over_not_draw demoG5 reach_demoG5 (by decide)

/-- Claim C8: a broadcast for a session id delivers the given snapshot
to exactly the observers currently registered under that id — every
delivery event carries the snapshot, an observer receives it iff it is
registered under that id, and hence never merely because it is
registered under a different id. -/
theorem hub_broadcast_exact {W S : Type} (h : Hub W S) (gameID : String)
    (game : GameState) :
    (∀ o : Observer W S,
      (o, game) ∈ broadcastEvents h gameID game ↔ registered h gameID o) ∧
    (∀ e ∈ broadcastEvents h gameID game, e.2 = game) := by
  constructor
  · intro o
    cases o with
    | ws c => simp [broadcastEvents, registered]
    | sse c => simp [broadcastEvents, registered]
  · intro e he
    rcases List.mem_append.mp he with h1 | h1 <;>
    · obtain ⟨c, _, rfl⟩ := List.mem_map.mp h1
      rfl

/-- Witness for C8: in the sample hub, broadcasting under `"a"` reaches
the WebSocket observer registered under `"a"` and not the SSE observer
registered only under `"b"`. -/
theorem hub_broadcast_exact_witness :
    (Observer.ws 1, newGameState "g1") ∈
      broadcastEvents hubSample "a" (newGameState "g1") ∧
    ((Observer.sse 2 : Observer Nat Nat), newGameState "g1") ∉
      broadcastEvents hubSample "a" (newGameState "g1") := by
  constructor
  · exact ((hub_broadcast_exact hubSample "a" (newGameState "g1")).1
      (Observer.ws 1)).mpr (by decide)
  · intro hmem
    exact absurd (((hub_broadcast_exact hubSample "a" (newGameState "g1")).1
      (Observer.sse 2)).mp hmem) (by decide)

/-- Claim C9: `ResetGame` replaces the session by `NewGameState`, whose
Go zero values leave both seat-occupancy flags false, so both seats are
unclaimed after a reset regardless of prior claims. -/
theorem resetGame_clears_seats (s : Store) (gameID : String)
    (g : GameState) (hs : s gameID = some g) :
    ∃ s2, storeResetGame s gameID = .ok (newGameState gameID, s2) ∧
      (newGameState gameID).playerXJoined = false ∧
      (newGameState gameID).playerOJoined = false := by
  refine ⟨fun id => if id = gameID then some (newGameState gameID) else s id,
    ?_, rfl, rfl⟩
  simp [storeResetGame, hs]

/-- Witness for C9: resetting a session with both seats claimed. -/
theorem resetGame_clears_seats_witness :
    ∃ s2, storeResetGame storeBoth "g1" = .ok (newGameState "g1", s2) ∧
      (newGameState "g1").playerXJoined = false ∧
      (newGameState "g1").playerOJoined = false :=
  resetGame_clears_seats storeBoth "g1" gBoth rfl

/-- Claim C10: `JoinGame` never returns the game-full error on any
session state and any mark: unrecognized marks fail earlier as
invalid, and when both seats are occupied the requested seat is
necessarily taken, so the slot-taken check fires first. -/
theorem joinGame_never_gameFull (g : GameState) (p : Player) :
    joinGame g p ≠ .error .gameFull := by
  unfold joinGame
  split
  · simp
  case isFalse hvalid =>
  split
  · simp
  case isFalse hx =>
  split
  · simp
  case isFalse ho =>
  split
  case isTrue hboth =>
    exfalso
    by_cases hpx : p = Player.X
    · exact hx ⟨hpx, hboth.1⟩
    · by_cases hpo : p = Player.O
      · exact ho ⟨hpo, hboth.2⟩
      · exact hvalid ⟨hpx, hpo⟩
  case isFalse =>
    split <;> simp

/-- Witness for C10: joining a full session as X fails, but not with
the game-full error. -/
theorem joinGame_never_gameFull_witness :
    joinGame gBoth Player.X ≠ .error .gameFull :=
  joinGame_never_gameFull gBoth Player.X

end TikTakToes
